import Mathlib

/-!
Shallow embedding of the client-side state layer of the document-summarizer
frontend: the zustand document store (`src/frontend/src/store/documentStore.ts`),
the upload pipeline of `DocumentUpload` and the delete handler of `DocumentCard`
(`src/frontend/src/components/DocumentUpload.tsx`), and the list
filtering/sorting of `HomePage` (`src/frontend/src/pages/HomePage.tsx`).

JS `number` fields are modelled as `Nat`/`Int`; `string | null` and optional
fields as `Option`; a TS `Partial<Document>` as a record of `Option`-wrapped
fields.  Asynchronous control flow (the sequential `for ... await` upload loop)
is embedded as the ordered list of observable events it emits, parametrised by
the outcome the API gives each file; `setTimeout` nesting is embedded as the
absolute firing delays of the scheduled actions.
-/

/-- Document status union from the frontend types:
`'uploading' | 'processing' | 'completed' | 'error'`. -/
inductive DocStatus
  | uploading
  | processing
  | completed
  | error
deriving DecidableEq

/-- `Summary` record from the frontend types (`id`, `documentId`, `content`,
`keyPoints`, `createdAt`, `processingTime`). -/
structure Summary where
  id : String
  documentId : String
  content : String
  keyPoints : List String
  createdAt : String
  processingTime : Nat
deriving DecidableEq

/-- Highlight category union `'key-point' | 'important' | 'definition'`. -/
inductive HighlightType
  | keyPoint
  | important
  | definition
deriving DecidableEq

/-- `Highlight` record from the frontend types; the numeric geometry and
confidence fields are modelled as `Int` (no claim computes with them). -/
structure Highlight where
  id : String
  documentId : String
  pageNumber : Nat
  x : Int
  y : Int
  width : Int
  height : Int
  text : String
  type : HighlightType
  confidence : Int
deriving DecidableEq

/-- `Document` record from the frontend types. -/
structure Document where
  id : String
  filename : String
  originalName : String
  fileSize : Nat
  uploadedAt : String
  status : DocStatus
  summary : Option Summary := none
  highlights : Option (List Highlight) := none
  pageCount : Option Nat := none
  textContent : Option String := none
deriving DecidableEq

/-- Processing stage union from the frontend types:
`'text-extraction' | 'summarization' | 'highlighting' | 'completed'`. -/
inductive ProcessingStage
  | textExtraction
  | summarization
  | highlighting
  | completed
deriving DecidableEq

/-- `ProcessingStatus` record from the frontend types. -/
structure ProcessingStatus where
  documentId : String
  stage : ProcessingStage
  progress : Nat
  message : String
deriving DecidableEq

/-- The zustand `DocumentStore` state (`documentStore.ts`, lines 4-11). -/
structure DocumentStore where
  documents : List Document
  currentDocument : Option Document
  currentSummary : Option Summary
  processingStatus : Option ProcessingStatus
  isLoading : Bool
  error : Option String
deriving DecidableEq

/-- The store's initial state (`documentStore.ts`, lines 26-31). -/
def initialStore : DocumentStore :=
  { documents := []
    currentDocument := none
    currentSummary := none
    processingStatus := none
    isLoading := false
    error := none }

/-- A TS `Partial<Document>`: each field optionally present.  For the fields
that are themselves optional on `Document`, the outer `Option` is key
presence and the inner value is what `{ ...doc, ...updates }` would write. -/
structure DocumentPatch where
  id : Option String := none
  filename : Option String := none
  originalName : Option String := none
  fileSize : Option Nat := none
  uploadedAt : Option String := none
  status : Option DocStatus := none
  summary : Option (Option Summary) := none
  highlights : Option (Option (List Highlight)) := none
  pageCount : Option (Option Nat) := none
  textContent : Option (Option String) := none
deriving DecidableEq

/-- The JS object spread `{ ...doc, ...updates }`: each key present in the
patch overrides the document's field. -/
def mergeDoc (d : Document) (p : DocumentPatch) : Document where
  id := p.id.getD d.id
  filename := p.filename.getD d.filename
  originalName := p.originalName.getD d.originalName
  fileSize := p.fileSize.getD d.fileSize
  uploadedAt := p.uploadedAt.getD d.uploadedAt
  status := p.status.getD d.status
  summary := p.summary.getD d.summary
  highlights := p.highlights.getD d.highlights
  pageCount := p.pageCount.getD d.pageCount
  textContent := p.textContent.getD d.textContent

/-- `setDocuments` action (`documentStore.ts`, line 33). -/
def setDocuments (s : DocumentStore) (documents : List Document) : DocumentStore :=
  { s with documents := documents }

/-- `addDocument` action (`documentStore.ts`, lines 35-37): prepends. -/
def addDocument (s : DocumentStore) (d : Document) : DocumentStore :=
  { s with documents := d :: s.documents }

/-- `updateDocument` action (`documentStore.ts`, lines 39-46). -/
def updateDocument (s : DocumentStore) (id : String) (p : DocumentPatch) : DocumentStore :=
  { s with
    documents := s.documents.map (fun doc => if doc.id == id then mergeDoc doc p else doc)
    currentDocument :=
      match s.currentDocument with
      | some cur => if cur.id == id then some (mergeDoc cur p) else some cur
      | none => none }

/-- `removeDocument` action (`documentStore.ts`, lines 48-52). -/
def removeDocument (s : DocumentStore) (id : String) : DocumentStore :=
  { s with
    documents := s.documents.filter (fun doc => doc.id != id)
    currentDocument :=
      match s.currentDocument with
      | some cur => if cur.id == id then none else some cur
      | none => none
    currentSummary :=
      match s.currentSummary with
      | some sum => if sum.documentId == id then none else some sum
      | none => none }

/-- `setCurrentDocument` action (`documentStore.ts`, line 54). -/
def setCurrentDocument (s : DocumentStore) (d : Option Document) : DocumentStore :=
  { s with currentDocument := d }

/-- `setCurrentSummary` action (`documentStore.ts`, line 56). -/
def setCurrentSummary (s : DocumentStore) (sum : Option Summary) : DocumentStore :=
  { s with currentSummary := sum }

/-- `setProcessingStatus` action (`documentStore.ts`, line 58). -/
def setProcessingStatus (s : DocumentStore) (st : Option ProcessingStatus) : DocumentStore :=
  { s with processingStatus := st }

/-- `setLoading` action (`documentStore.ts`, line 60). -/
def setLoading (s : DocumentStore) (b : Bool) : DocumentStore :=
  { s with isLoading := b }

/-- `setError` action (`documentStore.ts`, line 62). -/
def setError (s : DocumentStore) (e : Option String) : DocumentStore :=
  { s with error := e }

/-- `clearError` action (`documentStore.ts`, line 64). -/
def clearError (s : DocumentStore) : DocumentStore :=
  { s with error := none }

/-- A browser `File` as the component reads it: `name`, `size` (bytes) and
MIME `type`. -/
structure File where
  name : String
  size : Nat
  mime : String
deriving DecidableEq

/-- Modelled from the spec: `isValidPDF` lives in `src/lib/utils`, which is
absent from the source snapshot.  The spec (section 4.3, step 1) says the
validation requires that "MIME/extension must indicate PDF". -/
def isValidPDF (f : File) : Bool :=
  f.mime == "application/pdf" || f.name.endsWith ".pdf"

/-- The 50 MiB size limit of `DocumentUpload.onDrop`
(`50 * 1024 * 1024`, `DocumentUpload.tsx` line 27). -/
def maxUploadSize : Nat := 50 * 1024 * 1024

/-- The validation filter of `onDrop` (`DocumentUpload.tsx`, lines 22-32):
a file survives iff it is a valid PDF and not over the size limit. -/
def validFiles (accepted : List File) : List File :=
  accepted.filter (fun f => isValidPDF f && !(f.size > maxUploadSize))

/-- The per-file transient `UploadProgress` record of `DocumentUpload`
(`DocumentUpload.tsx`, lines 10-15). -/
structure UploadProgress where
  file : File
  progress : Nat
  status : DocStatus
  error : Option String := none
deriving DecidableEq

/-- The fresh entries pushed by `onDrop` (`DocumentUpload.tsx`, lines 37-41):
one per valid file, progress 0, status `uploading`. -/
def initialUploads (valid : List File) : List UploadProgress :=
  valid.map (fun f => { file := f, progress := 0, status := DocStatus.uploading })

/-- Outcome the API client gives one file's `uploadDocument` call. -/
inductive UploadOutcome
  | success (doc : Document)
  | failure (msg : String)
deriving DecidableEq

/-- Actions the nested `setTimeout` callbacks of `onDrop` perform on the
transient upload list (`DocumentUpload.tsx`, lines 70-81). -/
inductive TimerAction
  | markCompleted
  | removeEntry
deriving DecidableEq

/-- Observable events of one `onDrop` run, in program order. -/
inductive UploadEvent
  | toastFailed (msg : String)
  | uploadsAppend (entries : List UploadProgress)
  | apiUploadCall (f : File)
  | apiResolved (f : File)
  | apiRejected (f : File) (msg : String)
  | setUploadsProcessing (f : File)
  | storeAddDocument (d : Document)
  | scheduleTimers (f : File)
  | toastSuccess (msg : String)
  | setUploadsFailed (f : File) (msg : String)
  | storeSetError (msg : String)
deriving DecidableEq

/-- The validation toasts emitted while `onDrop` filters the accepted files
(`DocumentUpload.tsx`, lines 22-32), in file order. -/
def rejectionEvents (accepted : List File) : List UploadEvent :=
  accepted.filterMap (fun f =>
    if !isValidPDF f then some (UploadEvent.toastFailed (f.name ++ " is not a valid PDF file"))
    else if f.size > maxUploadSize then
      some (UploadEvent.toastFailed (f.name ++ " is too large (max 50MB)"))
    else none)

/-- The events one iteration of the sequential upload loop emits
(`DocumentUpload.tsx`, lines 46-100): the API call, its resolution, then on
success the processing update, the store insertion, the timer scheduling and
the success toast; on failure the per-entry error update, the store
`setError` and the failure toast. -/
def perFileEvents (o : File → UploadOutcome) (f : File) : List UploadEvent :=
  match o f with
  | UploadOutcome.success doc =>
      [UploadEvent.apiUploadCall f,
       UploadEvent.apiResolved f,
       UploadEvent.setUploadsProcessing f,
       UploadEvent.storeAddDocument doc,
       UploadEvent.scheduleTimers f,
       UploadEvent.toastSuccess (f.name ++ " uploaded successfully")]
  | UploadOutcome.failure msg =>
      [UploadEvent.apiUploadCall f,
       UploadEvent.apiRejected f msg,
       UploadEvent.setUploadsFailed f msg,
       UploadEvent.storeSetError msg,
       UploadEvent.toastFailed ("Failed to upload " ++ f.name)]

/-- The event of the loop iteration at which `f`'s upload call settles. -/
def resolutionEvent (o : File → UploadOutcome) (f : File) : UploadEvent :=
  match o f with
  | UploadOutcome.success _ => UploadEvent.apiResolved f
  | UploadOutcome.failure msg => UploadEvent.apiRejected f msg

/-- The `for ... await` loop over the valid files (`DocumentUpload.tsx`,
line 46): iterations run one after the other, so their events concatenate. -/
def uploadLoopEvents (o : File → UploadOutcome) : List File → List UploadEvent
  | [] => []
  | f :: fs => perFileEvents o f ++ uploadLoopEvents o fs

/-- The full event list of one `onDrop` call: validation toasts, then (when
any file survived) the append of the fresh entries followed by the
sequential upload loop (`DocumentUpload.tsx`, lines 21-101). -/
def onDropEvents (o : File → UploadOutcome) (accepted : List File) : List UploadEvent :=
  if (validFiles accepted).length = 0 then rejectionEvents accepted
  else rejectionEvents accepted ++
    (UploadEvent.uploadsAppend (initialUploads (validFiles accepted))
      :: uploadLoopEvents o (validFiles accepted))

/-- The progress-callback update of `onDrop` (`DocumentUpload.tsx`,
lines 50-56). -/
def applyProgressUpdate (us : List UploadProgress) (f : File) (progress : Nat) :
    List UploadProgress :=
  us.map (fun u => if u.file == f then { u with progress := progress } else u)

/-- The post-resolve update of `onDrop` (`DocumentUpload.tsx`, lines 60-64):
the entry for the file moves to `processing` with progress 100. -/
def applyProcessingUpdate (us : List UploadProgress) (f : File) : List UploadProgress :=
  us.map (fun u =>
    if u.file == f then { u with status := DocStatus.processing, progress := 100 } else u)

/-- The catch-block update of `onDrop` on the upload list
(`DocumentUpload.tsx`, lines 87-95). -/
def applyUploadFailure (us : List UploadProgress) (f : File) (msg : String) :
    List UploadProgress :=
  us.map (fun u =>
    if u.file == f then { u with status := DocStatus.error, error := some msg } else u)

/-- The catch-block update of `onDrop` on the document store
(`DocumentUpload.tsx`, line 97): `setError(message)`. -/
def onDropCatchStore (s : DocumentStore) (msg : String) : DocumentStore :=
  setError s (some msg)

/-- What each timer action does to the upload list: the outer callback maps
the entry to `completed` (`DocumentUpload.tsx`, lines 71-75), the inner one
filters the entry out (line 79). -/
def applyTimerAction (f : File) : TimerAction → List UploadProgress → List UploadProgress
  | TimerAction.markCompleted, us =>
      us.map (fun u => if u.file == f then { u with status := DocStatus.completed } else u)
  | TimerAction.removeEntry, us => us.filter (fun u => u.file != f)

/-- Absolute firing delays, measured from the moment the entry reached
`processing`, of the timers the success branch schedules
(`DocumentUpload.tsx`, lines 70-81): the outer `setTimeout(.., 1000)` marks
the entry `completed` and itself schedules the inner `setTimeout(.., 3000)`
that removes the entry, which therefore fires at `1000 + 3000`. -/
def completionTimers : List (Nat × TimerAction) :=
  [(1000, TimerAction.markCompleted), (1000 + 3000, TimerAction.removeEntry)]

/-- The timers one loop iteration schedules: the success branch schedules
`completionTimers`; the catch branch schedules none (`DocumentUpload.tsx`,
lines 85-99). -/
def timersForOutcome : UploadOutcome → List (Nat × TimerAction)
  | UploadOutcome.success _ => completionTimers
  | UploadOutcome.failure _ => []

/-- The store effect of `DocumentCard.handleDelete` (`DocumentUpload.tsx`,
lines 435-452): `removeDocument` runs only after `deleteDocument` resolved;
the catch branch only toasts, leaving the store untouched. -/
def handleDeleteStore (s : DocumentStore) (docId : String) (o : Except String Unit) :
    DocumentStore :=
  match o with
  | Except.ok _ => removeDocument s docId
  | Except.error _ => s

/-- `HomePage.loadDocuments` (`HomePage.tsx`, lines 42-56) as a function of
the API outcome: loading on, error cleared, then either the fetched items
replace the collection or the error message lands in the store; loading off. -/
def loadDocuments (s : DocumentStore) (o : Except String (List Document)) : DocumentStore :=
  let s1 := setError (setLoading s true) none
  match o with
  | Except.ok items => setLoading (setDocuments s1 items) false
  | Except.error msg => setLoading (setError s1 (some msg)) false

/-- HomePage sort mode union `'recent' | 'name' | 'size'`. -/
inductive SortBy
  | recent
  | name
  | size
deriving DecidableEq

/-- HomePage filter mode union `'all' | 'completed' | 'processing' | 'error'`. -/
inductive FilterBy
  | all
  | completed
  | processing
  | error
deriving DecidableEq

/-- Order model of `new Date(s).getTime()` for the ISO `YYYY-MM-DD` strings
the spec's scenario uses: reading the digits of the string in order yields a
value monotone in the calendar date, which is all the comparator consumes. -/
def dateValue (s : String) : Nat :=
  s.data.foldl (fun acc c => if c.isDigit then acc * 10 + (c.toNat - 48) else acc) 0

/-- Lexicographic three-way comparison of character lists by code point. -/
def cmpChars : List Char → List Char → Ordering
  | [], [] => Ordering.eq
  | [], _ :: _ => Ordering.lt
  | _ :: _, [] => Ordering.gt
  | a :: as, b :: bs =>
      if a.toNat < b.toNat then Ordering.lt
      else if b.toNat < a.toNat then Ordering.gt
      else cmpChars as bs

/-- Model of JS `String.prototype.localeCompare` for the plain ASCII names
the pages handle: negative, zero or positive according to lexicographic
string order. -/
def localeCompareInt (a b : String) : Int :=
  match cmpChars a.data b.data with
  | Ordering.lt => -1
  | Ordering.eq => 0
  | Ordering.gt => 1

/-- The comparator of `filteredAndSortedDocuments` (`HomePage.tsx`,
lines 71-82), one branch per sort mode. -/
def compareDocs : SortBy → Document → Document → Int
  | SortBy.recent, a, b => (dateValue b.uploadedAt : Int) - (dateValue a.uploadedAt : Int)
  | SortBy.name, a, b => localeCompareInt a.originalName b.originalName
  | SortBy.size, a, b => (b.fileSize : Int) - (a.fileSize : Int)

/-- The ordering relation a JS stable sort with `compareDocs` realises:
`a` may stay before `b` iff the comparator is non-positive. -/
def sortRel (sb : SortBy) (a b : Document) : Prop :=
  compareDocs sb a b ≤ 0

instance (sb : SortBy) : DecidableRel (sortRel sb) :=
  fun a b => inferInstanceAs (Decidable (compareDocs sb a b ≤ 0))

/-- JS `Array.prototype.sort` is a stable sort by the comparator (ES2019);
embedded as the stable insertion sort over `sortRel`. -/
def sortDocuments (sb : SortBy) (l : List Document) : List Document :=
  l.insertionSort (sortRel sb)

/-- The status test of the filter (`HomePage.tsx`, line 62): every document
passes `all`; otherwise the status must match the selected one. -/
def matchesFilter (fb : FilterBy) (d : Document) : Bool :=
  match fb with
  | FilterBy.all => true
  | FilterBy.completed => d.status == DocStatus.completed
  | FilterBy.processing => d.status == DocStatus.processing
  | FilterBy.error => d.status == DocStatus.error

/-- Substring test on character lists (model of JS `String.prototype.includes`). -/
def startsWithChars : List Char → List Char → Bool
  | _, [] => true
  | [], _ :: _ => false
  | a :: as, b :: bs => a == b && startsWithChars as bs

/-- Whether `pat` occurs somewhere in `s` (model of JS `includes`). -/
def containsChars (pat : List Char) : List Char → Bool
  | [] => pat.isEmpty
  | c :: rest => startsWithChars (c :: rest) pat || containsChars pat rest

/-- The search test of the filter (`HomePage.tsx`, lines 65-67): an empty
query is falsy in JS and filters nothing; otherwise the lower-cased name
must contain the lower-cased query. -/
def matchesSearch (q : String) (d : Document) : Bool :=
  q.isEmpty || containsChars q.toLower.data d.originalName.toLower.data

/-- `HomePage.filteredAndSortedDocuments` (`HomePage.tsx`, lines 59-82):
filter by status and search, then sort by the selected comparator. -/
def filteredAndSortedDocuments (docs : List Document) (fb : FilterBy) (q : String)
    (sb : SortBy) : List Document :=
  sortDocuments sb (docs.filter (fun d => matchesFilter fb d && matchesSearch q d))


/-! ### Concrete sample values used by witnesses and scenarios -/

/-- Sample completed document, uploaded 2024-01-01, display name `b.pdf`. -/
def docOne : Document :=
  { id := "doc-1", filename := "stored-1.pdf", originalName := "b.pdf",
    fileSize := 2048, uploadedAt := "2024-01-01", status := DocStatus.completed }

/-- Sample processing document, uploaded 2024-01-02, display name `a.pdf`. -/
def docTwo : Document :=
  { id := "doc-2", filename := "stored-2.pdf", originalName := "a.pdf",
    fileSize := 1024, uploadedAt := "2024-01-02", status := DocStatus.processing }

/-- Sample summary owned by `docOne`. -/
def sumOne : Summary :=
  { id := "sum-1", documentId := "doc-1", content := "summary text",
    keyPoints := ["k1"], createdAt := "2024-01-03", processingTime := 2 }

/-- Sample store holding both documents, viewing `docOne` and its summary. -/
def sampleStore : DocumentStore :=
  { documents := [docOne, docTwo], currentDocument := some docOne,
    currentSummary := some sumOne, processingStatus := none,
    isLoading := false, error := none }

/-! ### Claim theorems -/

/-- Claim C1: `removeDocument(id)` deletes the document with that identifier
from the collection, sets `currentDocument` to `null` iff its id equals `id`,
sets `currentSummary` to `null` iff its owning `documentId` equals `id`, and
leaves both unchanged otherwise. -/
theorem removeDocument_spec (s : DocumentStore) (id : String) :
    ((removeDocument s id).documents = s.documents.filter (fun d => d.id != id)) ∧
    (∀ d : Document, d ∈ (removeDocument s id).documents ↔ d ∈ s.documents ∧ d.id ≠ id) ∧
    (s.currentDocument = none → (removeDocument s id).currentDocument = none) ∧
    (∀ d, s.currentDocument = some d →
      ((removeDocument s id).currentDocument = none ↔ d.id = id)) ∧
    (∀ d, s.currentDocument = some d → d.id ≠ id →
      (removeDocument s id).currentDocument = some d) ∧
    (s.currentSummary = none → (removeDocument s id).currentSummary = none) ∧
    (∀ sm, s.currentSummary = some sm →
      ((removeDocument s id).currentSummary = none ↔ sm.documentId = id)) ∧
    (∀ sm, s.currentSummary = some sm → sm.documentId ≠ id →
      (removeDocument s id).currentSummary = some sm) := by
  refine ⟨rfl, ?_, ?_, ?_, ?_, ?_, ?_, ?_⟩
  · intro d
    simp [removeDocument, List.mem_filter, bne_iff_ne]
  · intro h
    simp [removeDocument, h]
  · intro d h
    by_cases hc : d.id = id <;> simp [removeDocument, h, hc]
  · intro d h hc
    simp [removeDocument, h, hc]
  · intro h
    simp [removeDocument, h]
  · intro sm h
    by_cases hc : sm.documentId = id <;> simp [removeDocument, h, hc]
  · intro sm h hc
    simp [removeDocument, h, hc]

/-- Witness for C1 at the sample store: removing the viewed document clears
both current references. -/
theorem removeDocument_spec_witness :
    sampleStore.currentDocument = some docOne ∧
    ((removeDocument sampleStore "doc-1").currentDocument = none ↔ docOne.id = "doc-1") ∧
    sampleStore.currentSummary = some sumOne ∧
    ((removeDocument sampleStore "doc-1").currentSummary = none ↔
      sumOne.documentId = "doc-1") :=
  ⟨rfl, (removeDocument_spec sampleStore "doc-1").2.2.2.1 docOne rfl, rfl,
   (removeDocument_spec sampleStore "doc-1").2.2.2.2.2.2.1 sumOne rfl⟩

/-- Claim C2: `updateDocument(id, partialFields)` merges the fields into the
matching document, is a no-op on the collection when no document matches,
updates `currentDocument` to the merged value when its id matches, and in
particular `updateDocument(id, \x7bstatus: 'completed'\x7d)` with
`currentDocument.id = id` yields a current document with status `completed`. -/
theorem updateDocument_spec (s : DocumentStore) (id : String) (p : DocumentPatch) :
    ((updateDocument s id p).documents =
      s.documents.map (fun d => if d.id == id then mergeDoc d p else d)) ∧
    ((∀ d ∈ s.documents, d.id ≠ id) → (updateDocument s id p).documents = s.documents) ∧
    (∀ d, s.currentDocument = some d → d.id = id →
      (updateDocument s id p).currentDocument = some (mergeDoc d p)) ∧
    (∀ d, s.currentDocument = some d → d.id ≠ id →
      (updateDocument s id p).currentDocument = some d) ∧
    (∀ d, s.currentDocument = some d → d.id = id →
      ∃ d', (updateDocument s id { status := some DocStatus.completed }).currentDocument
          = some d' ∧ d'.status = DocStatus.completed) := by
  refine ⟨rfl, ?_, ?_, ?_, ?_⟩
  · intro h
    show s.documents.map _ = s.documents
    calc s.documents.map (fun d => if d.id == id then mergeDoc d p else d)
        = s.documents.map (fun d => d) :=
          List.map_congr_left (fun d hd => by simp [h d hd])
      _ = s.documents := by simp
  · intro d h hid
    simp [updateDocument, h, hid]
  · intro d h hid
    simp [updateDocument, h, hid]
  · intro d h hid
    exact ⟨mergeDoc d { status := some DocStatus.completed },
      by simp [updateDocument, h, hid], rfl⟩

/-- Witness for C2 at the sample store: marking the viewed document completed
is visible through `currentDocument`. -/
theorem updateDocument_spec_witness :
    sampleStore.currentDocument = some docOne ∧ docOne.id = "doc-1" ∧
    (∃ d', (updateDocument sampleStore "doc-1"
        { status := some DocStatus.completed }).currentDocument = some d'
      ∧ d'.status = DocStatus.completed) :=
  ⟨rfl, rfl,
   (updateDocument_spec sampleStore "doc-1"
      { status := some DocStatus.completed }).2.2.2.2 docOne rfl rfl⟩

/-- Claim C10: `updateDocument` preserves the collection's length and the
position of every document (non-matching entries are untouched, the matching
position holds the merged document), and leaves `currentSummary`,
`processingStatus`, `isLoading` and `error` unchanged. -/
theorem updateDocument_frame (s : DocumentStore) (id : String) (p : DocumentPatch) :
    ((updateDocument s id p).documents.length = s.documents.length) ∧
    (∀ (i : Nat) (d : Document), s.documents[i]? = some d → d.id ≠ id →
      (updateDocument s id p).documents[i]? = some d) ∧
    (∀ (i : Nat) (d : Document), s.documents[i]? = some d → d.id = id →
      (updateDocument s id p).documents[i]? = some (mergeDoc d p)) ∧
    ((updateDocument s id p).currentSummary = s.currentSummary) ∧
    ((updateDocument s id p).processingStatus = s.processingStatus) ∧
    ((updateDocument s id p).isLoading = s.isLoading) ∧
    ((updateDocument s id p).error = s.error) := by
  refine ⟨by simp [updateDocument], ?_, ?_, rfl, rfl, rfl, rfl⟩
  · intro i d h hid
    simp [updateDocument, List.getElem?_map, h, hid]
  · intro i d h hid
    simp [updateDocument, List.getElem?_map, h, hid]

/-- Witness for C10 at the sample store: the non-matching entry at position 1
survives an update of `doc-1` unchanged. -/
theorem updateDocument_frame_witness :
    sampleStore.documents[1]? = some docTwo ∧ docTwo.id ≠ "doc-1" ∧
    (updateDocument sampleStore "doc-1"
      { status := some DocStatus.error }).documents[1]? = some docTwo :=
  ⟨rfl, by decide,
   (updateDocument_frame sampleStore "doc-1"
      { status := some DocStatus.error }).2.1 1 docTwo rfl (by decide)⟩

/-- Valid sample PDF file `a.pdf`. -/
def fileA : File := { name := "a.pdf", size := 1000, mime := "application/pdf" }

/-- Valid sample PDF file `b.pdf`. -/
def fileB : File := { name := "b.pdf", size := 2000, mime := "application/pdf" }

/-- Valid sample PDF file `c.pdf`. -/
def fileC : File := { name := "c.pdf", size := 3000, mime := "application/pdf" }

/-- Oversized sample PDF: one byte over the 50 MiB limit. -/
def fileBig : File :=
  { name := "big.pdf", size := 50 * 1024 * 1024 + 1, mime := "application/pdf" }

/-- Sample in-flight upload entry for `fileA`. -/
def uploadA : UploadProgress :=
  { file := fileA, progress := 37, status := DocStatus.uploading }

/-- Claim C3 counterexample: at the initial store, the catch handler of
`DocumentUpload.onDrop` (line 97, `setError(...)`) changes the store's
generic `error` field on a single file's upload failure. -/
theorem uploadFailure_changes_store_error :
    (onDropCatchStore initialStore "Upload failed").error ≠ initialStore.error := by
  decide

/-- Claim C3 (amended): the store's generic error flag is set by
document-list-loading failures and also by an individual file's upload
failure — the catch handler of `onDrop` writes the failure message to the
store's `error` field in addition to marking the per-upload entry. -/
theorem storeError_sources (s : DocumentStore) (msg : String) :
    ((loadDocuments s (Except.error msg)).error = some msg) ∧
    ((loadDocuments s (Except.error msg)).isLoading = false) ∧
    ((onDropCatchStore s msg).error = some msg) ∧
    (∀ (us : List UploadProgress) (f : File) (u : UploadProgress), u ∈ us → u.file = f →
      { u with status := DocStatus.error, error := some msg }
        ∈ applyUploadFailure us f msg) := by
  refine ⟨rfl, rfl, rfl, ?_⟩
  intro us f u hu hf
  have hmem := List.mem_map_of_mem
    (fun u : UploadProgress =>
      if u.file == f then { u with status := DocStatus.error, error := some msg } else u) hu
  simpa [applyUploadFailure, hf] using hmem

/-- Witness for the amended C3 at a singleton upload list. -/
theorem storeError_sources_witness :
    uploadA ∈ [uploadA] ∧ uploadA.file = fileA ∧
    { uploadA with status := DocStatus.error, error := some "boom" }
      ∈ applyUploadFailure [uploadA] fileA "boom" :=
  ⟨List.mem_singleton_self _, rfl,
   (storeError_sources initialStore "boom").2.2.2 [uploadA] fileA uploadA
     (List.mem_singleton_self _) rfl⟩

/-- Claim C9: `DocumentCard.handleDelete` removes the local entry only when
the delete API call succeeded; on failure the store is left untouched and the
document stays in the collection. -/
theorem handleDelete_spec (s : DocumentStore) (docId : String) (msg : String) :
    (handleDeleteStore s docId (Except.error msg) = s) ∧
    (∀ d, d ∈ (handleDeleteStore s docId (Except.error msg)).documents ↔ d ∈ s.documents) ∧
    (handleDeleteStore s docId (Except.ok ()) = removeDocument s docId) ∧
    (∀ d, d ∈ (handleDeleteStore s docId (Except.ok ())).documents ↔
      d ∈ s.documents ∧ d.id ≠ docId) := by
  refine ⟨rfl, fun d => Iff.rfl, rfl, ?_⟩
  intro d
  simp [handleDeleteStore, removeDocument, List.mem_filter, bne_iff_ne]

/-- Claim C6: when a file's upload call resolves, that loop iteration sets
the entry to `processing` with progress 100 before adding the returned
document, the processing update touches exactly that entry, and
`addDocument` prepends the document to the collection. -/
theorem uploadSuccess_spec (o : File → UploadOutcome) (f : File) (doc : Document) :
    (o f = UploadOutcome.success doc →
      perFileEvents o f =
        [UploadEvent.apiUploadCall f, UploadEvent.apiResolved f,
         UploadEvent.setUploadsProcessing f, UploadEvent.storeAddDocument doc,
         UploadEvent.scheduleTimers f,
         UploadEvent.toastSuccess (f.name ++ " uploaded successfully")]) ∧
    (∀ (us : List UploadProgress) (u : UploadProgress), u ∈ us → u.file = f →
      { u with status := DocStatus.processing, progress := 100 }
        ∈ applyProcessingUpdate us f) ∧
    (∀ (us : List UploadProgress) (u : UploadProgress), u ∈ us → u.file ≠ f →
      u ∈ applyProcessingUpdate us f) ∧
    (∀ s : DocumentStore, (addDocument s doc).documents = doc :: s.documents) := by
  refine ⟨?_, ?_, ?_, fun _ => rfl⟩
  · intro h
    simp [perFileEvents, h]
  · intro us u hu hf
    have hmem := List.mem_map_of_mem
      (fun u : UploadProgress =>
        if u.file == f then { u with status := DocStatus.processing, progress := 100 } else u) hu
    simpa [applyProcessingUpdate, hf] using hmem
  · intro us u hu hf
    have hmem := List.mem_map_of_mem
      (fun u : UploadProgress =>
        if u.file == f then { u with status := DocStatus.processing, progress := 100 } else u) hu
    simpa [applyProcessingUpdate, hf] using hmem

/-- Outcome assignment where every upload succeeds with `docOne`. -/
def oAllSuccess : File → UploadOutcome := fun _ => UploadOutcome.success docOne

/-- Witness for C6: the concrete success trace for `fileA` and the
processing update of a singleton upload list. -/
theorem uploadSuccess_spec_witness :
    (perFileEvents oAllSuccess fileA =
      [UploadEvent.apiUploadCall fileA, UploadEvent.apiResolved fileA,
       UploadEvent.setUploadsProcessing fileA, UploadEvent.storeAddDocument docOne,
       UploadEvent.scheduleTimers fileA,
       UploadEvent.toastSuccess (fileA.name ++ " uploaded successfully")]) ∧
    { uploadA with status := DocStatus.processing, progress := 100 }
      ∈ applyProcessingUpdate [uploadA] fileA :=
  ⟨(uploadSuccess_spec oAllSuccess fileA docOne).1 rfl,
   (uploadSuccess_spec oAllSuccess fileA docOne).2.1 [uploadA] uploadA
     (List.mem_singleton_self _) rfl⟩

/-- Claim C7: a successful upload schedules the `completed` transition 1000 ms
after the entry reached `processing` and the removal of the entry at
1000 + 3000 ms (so within 1 s and 4 s); a failed upload schedules no timer at
all, so an `error` entry is never auto-removed.  The two timer actions mark
the entry completed and filter it out of the transient list. -/
theorem uploadTimers_spec (doc : Document) (msg : String) :
    ((1000, TimerAction.markCompleted) ∈ timersForOutcome (UploadOutcome.success doc)) ∧
    (∃ t, (t, TimerAction.removeEntry) ∈ timersForOutcome (UploadOutcome.success doc) ∧
      1000 ≤ t ∧ t ≤ 4000) ∧
    (∀ t a, (t, a) ∈ timersForOutcome (UploadOutcome.failure msg) → False) ∧
    (∀ (us : List UploadProgress) (f : File) (u : UploadProgress),
      u ∈ applyTimerAction f TimerAction.removeEntry us ↔ u ∈ us ∧ u.file ≠ f) ∧
    (∀ (us : List UploadProgress) (f : File) (u : UploadProgress), u ∈ us → u.file = f →
      { u with status := DocStatus.completed }
        ∈ applyTimerAction f TimerAction.markCompleted us) := by
  refine ⟨by norm_num [timersForOutcome, completionTimers],
    ⟨4000, by norm_num [timersForOutcome, completionTimers], by norm_num, by norm_num⟩,
    ?_, ?_, ?_⟩
  · intro t a h
    simp [timersForOutcome] at h
  · intro us f u
    simp [applyTimerAction, List.mem_filter, bne_iff_ne]
  · intro us f u hu hf
    have hmem := List.mem_map_of_mem
      (fun u : UploadProgress =>
        if u.file == f then { u with status := DocStatus.completed } else u) hu
    simpa [applyTimerAction, hf] using hmem

/-- Witness for C7: the completed-marking of a singleton upload list. -/
theorem uploadTimers_spec_witness :
    uploadA ∈ [uploadA] ∧ uploadA.file = fileA ∧
    { uploadA with status := DocStatus.completed }
      ∈ applyTimerAction fileA TimerAction.markCompleted [uploadA] :=
  ⟨List.mem_singleton_self _, rfl,
   (uploadTimers_spec docOne "boom").2.2.2.2 [uploadA] fileA uploadA
     (List.mem_singleton_self _) rfl⟩

/-- Claim C5: an accepted file that is not a valid PDF or exceeds 50 MiB
(50 * 1024 * 1024 bytes) produces a rejection toast and never enters the
transient upload list, every valid file enters it with status `uploading` and
progress 0, and a drop of three valid PDFs plus one oversized file puts
exactly three entries into the pipeline, none of them for the oversized
file. -/
theorem onDropValidation_spec (accepted : List File) (f : File) :
    (f ∈ accepted → ¬(isValidPDF f = true ∧ f.size ≤ maxUploadSize) →
      ((UploadEvent.toastFailed (f.name ++ " is not a valid PDF file")
          ∈ rejectionEvents accepted ∨
        UploadEvent.toastFailed (f.name ++ " is too large (max 50MB)")
          ∈ rejectionEvents accepted) ∧
       ∀ u ∈ initialUploads (validFiles accepted), u.file ≠ f)) ∧
    (f ∈ accepted → isValidPDF f = true → f.size ≤ maxUploadSize →
      ({ file := f, progress := 0, status := DocStatus.uploading } : UploadProgress)
        ∈ initialUploads (validFiles accepted)) ∧
    ((initialUploads (validFiles [fileA, fileB, fileC, fileBig])).length = 3) ∧
    (UploadEvent.toastFailed (fileBig.name ++ " is too large (max 50MB)")
      ∈ rejectionEvents [fileA, fileB, fileC, fileBig]) ∧
    (∀ u ∈ initialUploads (validFiles [fileA, fileB, fileC, fileBig]), u.file ≠ fileBig) := by
  refine ⟨?_, ?_, by decide, by decide, by decide⟩
  · intro hf hbad
    constructor
    · by_cases hv : isValidPDF f
      · right
        have hsize : f.size > maxUploadSize := by
          by_contra hle
          exact hbad ⟨hv, Nat.le_of_not_lt hle⟩
        exact List.mem_filterMap.mpr ⟨f, hf, by simp [hv, hsize]⟩
      · left
        exact List.mem_filterMap.mpr ⟨f, hf, by simp [hv]⟩
    · intro u hu
      simp only [initialUploads, List.mem_map] at hu
      obtain ⟨g, hg, rfl⟩ := hu
      simp only [validFiles, List.mem_filter, Bool.and_eq_true, Bool.not_eq_true',
        decide_eq_false_iff_not, not_lt] at hg
      intro he
      have he2 : g = f := he
      rw [he2] at hg
      exact hbad ⟨hg.2.1, hg.2.2⟩
  · intro hf hv hsize
    have hmem : f ∈ validFiles accepted := by
      simp only [validFiles, List.mem_filter, Bool.and_eq_true, Bool.not_eq_true',
        decide_eq_false_iff_not, not_lt]
      exact ⟨hf, hv, hsize⟩
    exact List.mem_map_of_mem _ hmem

/-- Witness for C5 on the four-file drop: the oversized file is rejected and
absent from the pipeline while `a.pdf` enters at `uploading`/0. -/
theorem onDropValidation_spec_witness :
    ((UploadEvent.toastFailed (fileBig.name ++ " is not a valid PDF file")
        ∈ rejectionEvents [fileA, fileB, fileC, fileBig] ∨
      UploadEvent.toastFailed (fileBig.name ++ " is too large (max 50MB)")
        ∈ rejectionEvents [fileA, fileB, fileC, fileBig]) ∧
     ∀ u ∈ initialUploads (validFiles [fileA, fileB, fileC, fileBig]), u.file ≠ fileBig) ∧
    ({ file := fileA, progress := 0, status := DocStatus.uploading } : UploadProgress)
      ∈ initialUploads (validFiles [fileA, fileB, fileC, fileBig]) :=
  ⟨(onDropValidation_spec [fileA, fileB, fileC, fileBig] fileBig).1
      (by decide) (by decide),
   (onDropValidation_spec [fileA, fileB, fileC, fileBig] fileA).2.1
      (by decide) (by decide) (by decide)⟩

/-- The events of a split batch are the events of its parts, in order. -/
theorem uploadLoopEvents_append (o : File → UploadOutcome) (xs ys : List File) :
    uploadLoopEvents o (xs ++ ys) = uploadLoopEvents o xs ++ uploadLoopEvents o ys := by
  induction xs with
  | nil => rfl
  | cons f fs ih => simp [uploadLoopEvents, ih]

/-- One loop iteration opens with the file's API call immediately followed by
its resolution, and its remainder holds no API call at all. -/
theorem perFileEvents_decomp (o : File → UploadOutcome) (f : File) :
    ∃ rest, perFileEvents o f
        = UploadEvent.apiUploadCall f :: resolutionEvent o f :: rest ∧
      ∀ g, UploadEvent.apiUploadCall g ∉ rest := by
  cases ho : o f with
  | success doc =>
      refine ⟨[UploadEvent.setUploadsProcessing f, UploadEvent.storeAddDocument doc,
        UploadEvent.scheduleTimers f,
        UploadEvent.toastSuccess (f.name ++ " uploaded successfully")],
        by simp [perFileEvents, resolutionEvent, ho], ?_⟩
      intro g
      simp
  | failure msg =>
      refine ⟨[UploadEvent.setUploadsFailed f msg, UploadEvent.storeSetError msg,
        UploadEvent.toastFailed ("Failed to upload " ++ f.name)],
        by simp [perFileEvents, resolutionEvent, ho], ?_⟩
      intro g
      simp

/-- A file outside the batch never has its API call among the loop's events. -/
theorem apiCall_not_in_loop (o : File → UploadOutcome) (b : File) :
    ∀ fs : List File, b ∉ fs → UploadEvent.apiUploadCall b ∉ uploadLoopEvents o fs := by
  intro fs
  induction fs with
  | nil =>
      intro _ h
      simp [uploadLoopEvents] at h
  | cons f fs ih =>
      intro hb hmem
      simp only [uploadLoopEvents, List.mem_append] at hmem
      rcases hmem with h1 | h2
      · have hbf : b ≠ f := fun he => hb (by simp [he])
        cases ho : o f <;> simp [perFileEvents, ho, hbf] at h1
      · exact ih (fun h => hb (List.mem_cons_of_mem f h)) h2

/-- The validation toasts contain no API call events. -/
theorem apiCall_not_in_rejections (accepted : List File) (b : File) :
    UploadEvent.apiUploadCall b ∉ rejectionEvents accepted := by
  intro h
  obtain ⟨f, -, hf⟩ := List.mem_filterMap.mp h
  by_cases h1 : isValidPDF f <;> by_cases h2 : f.size > maxUploadSize <;>
    simp [h1, h2] at hf

/-- Claim C4: uploads are strictly sequential — for files `a` before `b`
among the valid files of one drop, `b`'s upload call appears in the event
trace only after `a`'s call has resolved or rejected — and this holds for
every outcome assignment, in particular when `a`'s upload fails, so one
file's failure does not prevent `b`'s call from being issued. -/
theorem sequentialUpload_spec (o : File → UploadOutcome)
    (accepted xs ys zs : List File) (a b : File)
    (hsplit : validFiles accepted = xs ++ a :: (ys ++ b :: zs))
    (hbxs : b ∉ xs) (hba : b ≠ a) (hbys : b ∉ ys) :
    ∃ p m s,
      onDropEvents o accepted
        = p ++ resolutionEvent o a :: (m ++ UploadEvent.apiUploadCall b :: s) ∧
      UploadEvent.apiUploadCall b ∉ p ∧
      UploadEvent.apiUploadCall b ∉ m := by
  obtain ⟨restA, hA, hAno⟩ := perFileEvents_decomp o a
  obtain ⟨restB, hB, hBno⟩ := perFileEvents_decomp o b
  have hne : ¬((validFiles accepted).length = 0) := by
    rw [hsplit]
    simp
  have hloop : uploadLoopEvents o (validFiles accepted)
      = uploadLoopEvents o xs ++ (perFileEvents o a ++ (uploadLoopEvents o ys
          ++ (perFileEvents o b ++ uploadLoopEvents o zs))) := by
    rw [hsplit, uploadLoopEvents_append]
    congr 1
    rw [show uploadLoopEvents o (a :: (ys ++ b :: zs))
          = perFileEvents o a ++ uploadLoopEvents o (ys ++ b :: zs) from rfl,
        uploadLoopEvents_append]
    rfl
  refine ⟨rejectionEvents accepted
      ++ (UploadEvent.uploadsAppend (initialUploads (validFiles accepted))
          :: (uploadLoopEvents o xs ++ [UploadEvent.apiUploadCall a])),
    restA ++ uploadLoopEvents o ys,
    resolutionEvent o b :: (restB ++ uploadLoopEvents o zs), ?_, ?_, ?_⟩
  · unfold onDropEvents
    rw [if_neg hne, hloop, hA, hB]
    simp [List.append_assoc]
  · intro hmem
    rcases List.mem_append.mp hmem with h | h
    · exact apiCall_not_in_rejections accepted b h
    · rcases List.mem_cons.mp h with h | h
      · simp at h
      · rcases List.mem_append.mp h with h | h
        · exact apiCall_not_in_loop o b xs hbxs h
        · simp [hba] at h
  · intro hmem
    rcases List.mem_append.mp hmem with h | h
    · exact hAno b h
    · exact apiCall_not_in_loop o b ys hbys h

/-- Outcome assignment where `fileA`'s upload fails and any other succeeds. -/
def oFailFirst : File → UploadOutcome :=
  fun f => if f == fileA then UploadOutcome.failure "network down"
           else UploadOutcome.success docOne

/-- Witness for C4: a two-file drop where the first upload fails; the second
file's call still appears, after the first one's rejection. -/
theorem sequentialUpload_spec_witness :
    validFiles [fileA, fileB] = [] ++ fileA :: ([] ++ fileB :: []) ∧
    (∃ p m s,
      onDropEvents oFailFirst [fileA, fileB]
        = p ++ resolutionEvent oFailFirst fileA
            :: (m ++ UploadEvent.apiUploadCall fileB :: s) ∧
      UploadEvent.apiUploadCall fileB ∉ p ∧
      UploadEvent.apiUploadCall fileB ∉ m) :=
  ⟨by decide,
   sequentialUpload_spec oFailFirst [fileA, fileB] [] [] [] fileA fileB (by decide)
     (by decide) (by decide) (by decide)⟩

/-- The `recent` comparator is non-positive exactly when the kept element's
date is at least the other's: descending `uploadedAt`. -/
theorem sortRel_recent_iff (a b : Document) :
    sortRel SortBy.recent a b ↔ dateValue b.uploadedAt ≤ dateValue a.uploadedAt := by
  simp only [sortRel, compareDocs]
  omega

/-- Swapping the arguments of `cmpChars` swaps the verdict. -/
theorem cmpChars_swap : ∀ x y : List Char, cmpChars y x = (cmpChars x y).swap
  | [], [] => rfl
  | [], _ :: _ => rfl
  | _ :: _, [] => rfl
  | x :: xs, y :: ys => by
      simp only [cmpChars]
      by_cases h1 : x.toNat < y.toNat <;> by_cases h2 : y.toNat < x.toNat <;>
        simp [h1, h2, Ordering.swap] <;>
        first
          | omega
          | exact cmpChars_swap xs ys

/-- The non-strict order induced by `cmpChars` is transitive. -/
theorem cmpChars_le_trans : ∀ x y z : List Char,
    cmpChars x y ≠ Ordering.gt → cmpChars y z ≠ Ordering.gt →
    cmpChars x z ≠ Ordering.gt
  | [], _, [] => by simp [cmpChars]
  | [], _, _ :: _ => by simp [cmpChars]
  | _ :: _, [], _ => by simp [cmpChars]
  | _ :: _, _ :: _, [] => by simp [cmpChars]
  | x :: xs, y :: ys, z :: zs => by
      intro h1 h2
      simp only [cmpChars] at h1 h2 ⊢
      by_cases hxy : x.toNat < y.toNat <;> by_cases hyx : y.toNat < x.toNat <;>
        by_cases hyz : y.toNat < z.toNat <;> by_cases hzy : z.toNat < y.toNat <;>
        by_cases hxz : x.toNat < z.toNat <;> by_cases hzx : z.toNat < x.toNat <;>
        simp [hxy, hyx, hyz, hzy, hxz, hzx] at h1 h2 ⊢ <;>
        first
          | omega
          | exact cmpChars_le_trans xs ys zs h1 h2

/-- Ascending-name order between documents: the first name is at most the
second in the code-point lexicographic order that `localeCompare` realises. -/
def nameLe (a b : Document) : Prop :=
  cmpChars a.originalName.data b.originalName.data ≠ Ordering.gt

/-- The `name` comparator is non-positive exactly for ascending
`originalName`. -/
theorem sortRel_name_iff (a b : Document) :
    sortRel SortBy.name a b ↔ nameLe a b := by
  simp only [sortRel, compareDocs, localeCompareInt, nameLe]
  cases cmpChars a.originalName.data b.originalName.data
  · exact iff_of_true (by norm_num) (by simp)
  · exact iff_of_true (by norm_num) (by simp)
  · exact iff_of_false (by norm_num) (by simp)

/-- The `size` comparator is non-positive exactly for descending `fileSize`. -/
theorem sortRel_size_iff (a b : Document) :
    sortRel SortBy.size a b ↔ b.fileSize ≤ a.fileSize := by
  simp only [sortRel, compareDocs]
  omega

instance (sb : SortBy) : IsTotal Document (sortRel sb) where
  total a b := by
    cases sb
    · rw [sortRel_recent_iff, sortRel_recent_iff]
      omega
    · rw [sortRel_name_iff, sortRel_name_iff]
      simp only [nameLe]
      rw [cmpChars_swap]
      cases h : cmpChars b.originalName.data a.originalName.data <;>
        simp [h, Ordering.swap]
    · rw [sortRel_size_iff, sortRel_size_iff]
      omega

instance (sb : SortBy) : IsTrans Document (sortRel sb) where
  trans a b c := by
    cases sb
    · simp only [sortRel_recent_iff]
      omega
    · simp only [sortRel_name_iff, nameLe]
      exact fun h1 h2 => cmpChars_le_trans _ _ _ h1 h2
    · simp only [sortRel_size_iff]
      omega

/-- Claim C8: sorting by `recent` permutes the collection into descending
`uploadedAt` order, sorting by `name` into ascending `originalName` order,
and filtering by `completed` keeps exactly the documents whose status is
`completed`; on the two-document scenario the 2024-01-02 document sorts
first under `recent`, `a.pdf` sorts before `b.pdf` under `name`, and the
completed filter keeps exactly the completed document. -/
theorem filterSort_spec :
    (∀ docs : List Document, (sortDocuments SortBy.recent docs).Perm docs ∧
      (sortDocuments SortBy.recent docs).Sorted
        (fun a b => dateValue b.uploadedAt ≤ dateValue a.uploadedAt)) ∧
    (∀ docs : List Document, (sortDocuments SortBy.name docs).Perm docs ∧
      (sortDocuments SortBy.name docs).Sorted nameLe) ∧
    (∀ (docs : List Document) (d : Document),
      d ∈ docs.filter (fun d => matchesFilter FilterBy.completed d && matchesSearch "" d) ↔
        d ∈ docs ∧ d.status = DocStatus.completed) ∧
    (filteredAndSortedDocuments [docOne, docTwo] FilterBy.all "" SortBy.recent
      = [docTwo, docOne]) ∧
    (filteredAndSortedDocuments [docOne, docTwo] FilterBy.all "" SortBy.name
      = [docTwo, docOne]) ∧
    (filteredAndSortedDocuments [docOne, docTwo] FilterBy.completed "" SortBy.recent
      = [docOne]) := by
  refine ⟨?_, ?_, ?_, by decide, by decide, by decide⟩
  · intro docs
    exact ⟨List.perm_insertionSort _ docs,
      (List.sorted_insertionSort (sortRel SortBy.recent) docs).imp
        (fun h => (sortRel_recent_iff _ _).mp h)⟩
  · intro docs
    exact ⟨List.perm_insertionSort _ docs,
      (List.sorted_insertionSort (sortRel SortBy.name) docs).imp
        (fun h => (sortRel_name_iff _ _).mp h)⟩
  · intro docs d
    simp [List.mem_filter, matchesFilter, matchesSearch]
    exact fun _ _ => Or.inl rfl
